import Mathlib

/-!
Shallow embedding of the dashboard state manager (`useDashboard` hook) of the
plotly-datatech-dashboard repository, together with theorems settling the
frozen claims about it.

The embedded code is the enhanced state-management part of the hook:
`updateDashboardState`, `undo`, `redo`, `canUndo`, `canRedo`,
`resetToDefault`, `saveState`, `loadState`, `registerCallback`, the filter
dependency (cascade) table, and the transaction log.  React's `useState`
cells become fields of an explicit `Store` record, and each operation is a
function from `Store` to `Store` (plus a return value where the source
returns one); the source is single-threaded and synchronous, so sequential
state passing is a faithful model.

Observable side effects of callbacks (the only side effects any claim talks
about) are modelled by an append-only log: a callback returns a list of
trace entries plus an optional thrown exception, and the store accumulates
the trace entries of every invocation in `emitted` and the messages caught
by the source's try/catch (which the source routes to `console.error`) in
`consoleErrors`.

`localStorage` is modelled as an association list from keys to
`Option DashboardState`: `some s` is an entry whose JSON parses to `s`
(serialisation of the six string fields round-trips exactly), `none` is an
entry whose JSON does not parse (`JSON.parse` throws, the source catches
the exception and falls through to `return false`).

Transaction ids and timestamps come from `Date.now()` and `Math.random()`
in the source; they are opaque environment-supplied values that no claim
inspects, and are modelled by a monotone counter `clock` in the store.
-/

/-- The dashboard selection state: the six string-valued fields of the
source's `DashboardState` interface. -/
structure DashboardState where
  selectedTimeRange : String
  selectedRevenueType : String
  selectedDepartment : String
  selectedMetric : String
  selectedIndustry : String
  selectedRegion : String
deriving DecidableEq

/-- The source's `initialDashboardState` constant. -/
def initialDashboardState : DashboardState :=
  { selectedTimeRange := "1Y"
    selectedRevenueType := "subscription"
    selectedDepartment := "all"
    selectedMetric := "revenue"
    selectedIndustry := "all"
    selectedRegion := "all" }

/-- Names of the fields of `DashboardState` (the `keyof DashboardState`
type of the source). -/
inductive StateField where
  | selectedTimeRange
  | selectedRevenueType
  | selectedDepartment
  | selectedMetric
  | selectedIndustry
  | selectedRegion
deriving DecidableEq

/-- A partial update object (`Partial<DashboardState>` in the source): each
field is either present with a string value or absent. -/
structure StateUpdates where
  selectedTimeRange : Option String := none
  selectedRevenueType : Option String := none
  selectedDepartment : Option String := none
  selectedMetric : Option String := none
  selectedIndustry : Option String := none
  selectedRegion : Option String := none
deriving DecidableEq

/-- StateField lookup in a partial update object. -/
def StateUpdates.get (u : StateUpdates) : StateField → Option String
  | .selectedTimeRange => u.selectedTimeRange
  | .selectedRevenueType => u.selectedRevenueType
  | .selectedDepartment => u.selectedDepartment
  | .selectedMetric => u.selectedMetric
  | .selectedIndustry => u.selectedIndustry
  | .selectedRegion => u.selectedRegion

/-- StateField assignment in a partial update object (the source's
`finalUpdates[resetKey] = v`). -/
def StateUpdates.set (u : StateUpdates) : StateField → String → StateUpdates
  | .selectedTimeRange, v => { u with selectedTimeRange := some v }
  | .selectedRevenueType, v => { u with selectedRevenueType := some v }
  | .selectedDepartment, v => { u with selectedDepartment := some v }
  | .selectedMetric, v => { u with selectedMetric := some v }
  | .selectedIndustry, v => { u with selectedIndustry := some v }
  | .selectedRegion, v => { u with selectedRegion := some v }

/-- All fields, in declaration order; used to enumerate `Object.keys`. -/
def allFields : List StateField :=
  [.selectedTimeRange, .selectedRevenueType, .selectedDepartment,
   .selectedMetric, .selectedIndustry, .selectedRegion]

/-- The source's `FilterDependency` type: a trigger field and the fields it
resets. -/
structure FilterDependency where
  trigger : StateField
  reset : List StateField
deriving DecidableEq

/-- The source's `filterDependencies` table: region resets industry,
department resets metric. -/
def filterDependencies : List FilterDependency :=
  [{ trigger := .selectedRegion, reset := [.selectedIndustry] },
   { trigger := .selectedDepartment, reset := [.selectedMetric] }]

/-- Cascade resolution: the source's loop over `Object.keys(updates)` that
builds `finalUpdates` from `updates` by applying `filterDependencies`, with
the source's literal reset values (`selectedMetric` to `"revenue"`,
`selectedIndustry` to `"all"`). -/
def resolveUpdates (updates : StateUpdates) : StateUpdates :=
  (allFields.filter (fun k => (updates.get k).isSome)).foldl
    (fun acc k =>
      match filterDependencies.find? (fun dep => decide (dep.trigger = k)) with
      | some dep =>
        dep.reset.foldl
          (fun acc2 rk =>
            if rk = StateField.selectedMetric then acc2.set StateField.selectedMetric "revenue"
            else if rk = StateField.selectedIndustry then acc2.set StateField.selectedIndustry "all"
            else acc2)
          acc
      | none => acc)
    updates

/-- The source's `Object.assign(newState, finalUpdates)`: merge a partial
update object onto a complete state, field-wise. -/
def applyUpdates (s : DashboardState) (u : StateUpdates) : DashboardState :=
  { selectedTimeRange := u.selectedTimeRange.getD s.selectedTimeRange
    selectedRevenueType := u.selectedRevenueType.getD s.selectedRevenueType
    selectedDepartment := u.selectedDepartment.getD s.selectedDepartment
    selectedMetric := u.selectedMetric.getD s.selectedMetric
    selectedIndustry := u.selectedIndustry.getD s.selectedIndustry
    selectedRegion := u.selectedRegion.getD s.selectedRegion }

/-- The source's `StateTransaction`: id, timestamp, the resolved partial
updates, and the optional source tag.  Id and timestamp are the opaque
environment values described in the file header. -/
structure StateTransaction where
  id : Nat
  timestamp : Nat
  updates : StateUpdates
  source : Option String
deriving DecidableEq

/-- Observable result of invoking one callback: the trace entries it emits
before returning or throwing, and the exception it throws, if any. -/
structure CallbackResult where
  trace : List String
  error : Option String

/-- The source's `DashboardCallback` type `(state, previousState) => void`,
with its observable behaviour made explicit. -/
def DashboardCallback := DashboardState → DashboardState → CallbackResult

/-- The full state of one `useDashboard` store: each `useState` cell of the
enhanced state-management part of the hook, plus the observation logs and
the clock described in the file header. -/
structure Store where
  dashboardState : DashboardState
  callbacks : List (String × DashboardCallback)
  stateHistory : List StateTransaction
  currentHistoryIndex : Int
  savedStates : List (String × DashboardState)
  localStorage : List (String × Option DashboardState)
  emitted : List String
  consoleErrors : List String
  clock : Nat

/-- The store as created by the hook: initial default state, empty history,
index `-1`, empty registries and logs. -/
def initialStore : Store :=
  { dashboardState := initialDashboardState
    callbacks := []
    stateHistory := []
    currentHistoryIndex := -1
    savedStates := []
    localStorage := []
    emitted := []
    consoleErrors := []
    clock := 0 }

/-- JavaScript `Map.set` on an association list: replace the value in place
if the key exists (keeping its position, hence insertion order), otherwise
append. -/
def assocSet [DecidableEq α] : List (α × β) → α → β → List (α × β)
  | [], k, v => [(k, v)]
  | (k2, v2) :: rest, k, v =>
    if k = k2 then (k, v) :: rest else (k2, v2) :: assocSet rest k v

/-- JavaScript `Map.get` on an association list. -/
def assocGet [DecidableEq α] (l : List (α × β)) (k : α) : Option β :=
  (l.find? (fun p => decide (p.1 = k))).map (fun p => p.2)

/-- The source's `callbacks.forEach` loop with its per-callback try/catch:
every callback is invoked once, in registry (insertion) order, with
`(newState, prev)`; its trace entries are accumulated, and a thrown
exception is caught and recorded (the source logs it via `console.error`)
instead of stopping the loop or propagating. Returns the emitted trace and
the caught errors, in order. -/
def runCallbacks (cbs : List (String × DashboardCallback))
    (newS prevS : DashboardState) : List String × List String :=
  cbs.foldl
    (fun acc p =>
      let r := p.2 newS prevS
      (acc.1 ++ r.trace, acc.2 ++ r.error.toList))
    ([], [])

/-- The source's `updateDashboardState(updates, source)`: resolve cascades
into `finalUpdates`, merge onto the previous state, record a transaction,
truncate the history to the current index before appending
(`history.slice(0, currentHistoryIndex + 1)`), advance the index, and
trigger the callbacks with `(newState, prev)`. -/
def Store.updateDashboardState (store : Store) (updates : StateUpdates)
    (source : Option String) : Store :=
  let finalUpdates := resolveUpdates updates
  let newState := applyUpdates store.dashboardState finalUpdates
  let transaction : StateTransaction :=
    { id := store.clock, timestamp := store.clock
      updates := finalUpdates, source := source }
  let newHistory :=
    store.stateHistory.take (store.currentHistoryIndex + 1).toNat ++ [transaction]
  let r := runCallbacks store.callbacks newState store.dashboardState
  { store with
    dashboardState := newState
    stateHistory := newHistory
    currentHistoryIndex := store.currentHistoryIndex + 1
    emitted := store.emitted ++ r.1
    consoleErrors := store.consoleErrors ++ r.2
    clock := store.clock + 1 }

/-- The source's `canUndo` derived boolean: `currentHistoryIndex > 0`. -/
def Store.canUndo (store : Store) : Bool :=
  decide (0 < store.currentHistoryIndex)

/-- The source's `canRedo` derived boolean:
`currentHistoryIndex < stateHistory.length - 1`. -/
def Store.canRedo (store : Store) : Bool :=
  decide (store.currentHistoryIndex < (store.stateHistory.length : Int) - 1)

/-- Replay: fold the default state with the `updates` of each transaction
of the given list, in order (the reconstruction loop of the source's
`undo`). -/
def replayState (txs : List StateTransaction) : DashboardState :=
  txs.foldl (fun s t => applyUpdates s t.updates) initialDashboardState

/-- The source's `undo`: guarded by `canUndo`; decrements the index and
reconstructs the state by applying all transactions from the first through
the new index onto the initial default state.  It touches neither the
history, nor the callback registry, nor runs any callback. -/
def Store.undo (store : Store) : Store :=
  if store.canUndo then
    let previousIndex := store.currentHistoryIndex - 1
    let reconstructed :=
      replayState (store.stateHistory.take (previousIndex + 1).toNat)
    { store with
      dashboardState := reconstructed
      currentHistoryIndex := previousIndex }
  else store

/-- The source's `redo`: guarded by `canRedo`; increments the index and
merges the next transaction's `updates` directly onto the current state
(`{ ...prev, ...transaction.updates }`).  The source indexes
`stateHistory[nextIndex]` unguarded; `canRedo` keeps it in bounds, so the
out-of-bounds arm below is unreachable. -/
def Store.redo (store : Store) : Store :=
  if store.canRedo then
    let nextIndex := store.currentHistoryIndex + 1
    match store.stateHistory[nextIndex.toNat]? with
    | some transaction =>
      { store with
        dashboardState := applyUpdates store.dashboardState transaction.updates
        currentHistoryIndex := nextIndex }
    | none => store
  else store

/-- A complete update object whose every field is present (the source's
`resetToDefault` passes the whole `initialDashboardState` object as the
transaction's `updates`). -/
def fullUpdates (s : DashboardState) : StateUpdates :=
  { selectedTimeRange := some s.selectedTimeRange
    selectedRevenueType := some s.selectedRevenueType
    selectedDepartment := some s.selectedDepartment
    selectedMetric := some s.selectedMetric
    selectedIndustry := some s.selectedIndustry
    selectedRegion := some s.selectedRegion }

/-- The source's `resetToDefault`: records a transaction whose `updates` is
the complete initial state with source tag `"reset"`, sets the state to the
initial default, appends the transaction to the history
(`[...prev, transaction]` — no truncation), and increments the index. -/
def Store.resetToDefault (store : Store) : Store :=
  let transaction : StateTransaction :=
    { id := store.clock, timestamp := store.clock
      updates := fullUpdates initialDashboardState, source := some "reset" }
  { store with
    dashboardState := initialDashboardState
    stateHistory := store.stateHistory ++ [transaction]
    currentHistoryIndex := store.currentHistoryIndex + 1
    clock := store.clock + 1 }

/-- The source's `saveState(name)`: duplicate the current state into the
in-memory map and into `localStorage` under `"dashboard_state_" + name`. -/
def Store.saveState (store : Store) (name : String) : Store :=
  { store with
    savedStates := assocSet store.savedStates name store.dashboardState
    localStorage :=
      assocSet store.localStorage ("dashboard_state_" ++ name)
        (some store.dashboardState) }

/-- The source's `loadState(name)`: check the in-memory map first; on a
miss, check `localStorage` (an unparseable entry throws inside the try,
is caught, and falls through to `return false`); a nonexistent name
returns `false` with the store untouched.  Only `dashboardState` is ever
written; in particular the in-memory map is not populated on a
persistence-layer hit. -/
def Store.loadState (store : Store) (name : String) : Store × Bool :=
  match assocGet store.savedStates name with
  | some memoryState => ({ store with dashboardState := memoryState }, true)
  | none =>
    match assocGet store.localStorage ("dashboard_state_" ++ name) with
    | some (some parsedState) =>
      ({ store with dashboardState := parsedState }, true)
    | some none => (store, false)
    | none => (store, false)

/-- The source's `registerCallback(id, callback)`: `Map.set` semantics —
a fresh id is appended after the existing entries, an existing id keeps
its position. -/
def Store.registerCallback (store : Store) (id : String)
    (cb : DashboardCallback) : Store :=
  { store with callbacks := assocSet store.callbacks id cb }

/-- One invocation of a public store operation, for quantifying over
operation sequences. -/
inductive StoreOp where
  | update (updates : StateUpdates) (source : Option String)
  | undo
  | redo
  | reset
  | save (name : String)
  | load (name : String)

/-- Apply one operation to a store (dropping `loadState`'s boolean
return value, which the store itself does not consume). -/
def Store.applyOp (store : Store) : StoreOp → Store
  | .update u src => store.updateDashboardState u src
  | .undo => store.undo
  | .redo => store.redo
  | .reset => store.resetToDefault
  | .save n => store.saveState n
  | .load n => (store.loadState n).1

/-- Run a sequence of operations from the freshly created store. -/
def runOps (ops : List StoreOp) : Store :=
  ops.foldl Store.applyOp initialStore

/-- Whether an operation is one of the three transaction-log operations
`updateDashboardState`, `undo`, `redo`. -/
def StoreOp.isHistoryOp : StoreOp → Bool
  | .update _ _ => true
  | .undo => true
  | .redo => true
  | _ => false

/-- Run a list of `(updates, source)` pairs through `updateDashboardState`
from the freshly created store. -/
def runUpdates (us : List (StateUpdates × Option String)) : Store :=
  us.foldl (fun st p => st.updateDashboardState p.1 p.2) initialStore

/-- Iterate a store operation a given number of times. -/
def opIter (f : Store → Store) : Nat → Store → Store
  | 0, s => s
  | n + 1, s => opIter f n (f s)

/-- The store is replay-consistent: the materialized state equals the fold
of the default state with every transaction's updates from the first entry
through the current position, and the position is within the log bounds
(with `-1` denoting the pre-history position). -/
def Store.consistent (s : Store) : Prop :=
  s.dashboardState = replayState (s.stateHistory.take (s.currentHistoryIndex + 1).toNat)
  ∧ -1 ≤ s.currentHistoryIndex
  ∧ s.currentHistoryIndex < (s.stateHistory.length : Int)

/-- The update object of the spec's concrete scenario:
`updateDashboardState(\x7bselectedRegion: "Europe"\x7d, "test")`. -/
def regionEuropeUpdates : StateUpdates := { selectedRegion := some "Europe" }

/-- An update object setting only `selectedTimeRange` (not a cascade
trigger). -/
def u6M : StateUpdates := { selectedTimeRange := some "6M" }

/-- An update object setting only `selectedRevenueType` (not a cascade
trigger). -/
def uUsage : StateUpdates := { selectedRevenueType := some "usage" }

/-- An update object setting only `selectedMetric` (a cascade reset target
but not a trigger). -/
def uGrowth : StateUpdates := { selectedMetric := some "growth_rate" }

/-- The store after the spec's concrete scenario: one
`updateDashboardState` call with region "Europe" and source "test" from
the freshly created store. -/
def c1store : Store :=
  initialStore.updateDashboardState regionEuropeUpdates (some "test")

/-- Two updates, one undo, then `resetToDefault`: before the reset the
position (0) is not at the end of the log (length 2). -/
def c2run : Store := runOps [.update u6M none, .update uUsage none, .undo, .reset]

/-- A callback that emits one trace entry per invocation and never
throws. -/
def c3cb : DashboardCallback := fun _ _ => { trace := ["observed"], error := none }

/-- A store with one registered callback and two recorded updates, so that
`undo` actually changes the position. -/
def c3base : Store :=
  ((initialStore.registerCallback "obs" c3cb).updateDashboardState u6M none).updateDashboardState
    uUsage none

/-- An operation sequence whose final state was set by `loadState` (which
does not touch the transaction log): update metric, save that state under
"x", update time range, update revenue type, undo once, load "x". -/
def c4run : Store := runOps
  [.update uGrowth none, .save "x", .update u6M none, .update uUsage none,
   .undo, .load "x"]

/-- A prior dashboard state whose industry selection is not the default. -/
def c5prior : DashboardState := { initialDashboardState with selectedIndustry := "tech" }

/-- A snapshot differing from the default state. -/
def c6snapshot : DashboardState := { initialDashboardState with selectedTimeRange := "6M" }

/-- A store whose snapshot "x" exists only in the persistence layer, not in
the in-memory map (as after a page reload whose mount-time preload did not
run, or when another tab wrote the key). -/
def c6store : Store :=
  { initialStore with localStorage := [("dashboard_state_x", some c6snapshot)] }

/-- Replaying a log extended by one transaction merges that transaction's
updates onto the replay of the shorter log. -/
theorem replayState_snoc (l : List StateTransaction) (tx : StateTransaction) :
    replayState (l ++ [tx]) = applyUpdates (replayState l) tx.updates := by
  unfold replayState
  rw [List.foldl_append]
  rfl

/-- Projection: `updateDashboardState` truncates the history to the current
position and appends the new transaction. -/
theorem update_stateHistory (s : Store) (u : StateUpdates) (src : Option String) :
    (s.updateDashboardState u src).stateHistory =
      s.stateHistory.take (s.currentHistoryIndex + 1).toNat ++
        [{ id := s.clock, timestamp := s.clock
           updates := resolveUpdates u, source := src }] := rfl

/-- Projection: `updateDashboardState` advances the position by one. -/
theorem update_index (s : Store) (u : StateUpdates) (src : Option String) :
    (s.updateDashboardState u src).currentHistoryIndex = s.currentHistoryIndex + 1 := rfl

/-- Projection: `updateDashboardState` commits the merge of the resolved
updates onto the previous state. -/
theorem update_state (s : Store) (u : StateUpdates) (src : Option String) :
    (s.updateDashboardState u src).dashboardState =
      applyUpdates s.dashboardState (resolveUpdates u) := rfl

/-- `undo` never modifies the transaction log. -/
theorem undo_stateHistory (s : Store) : s.undo.stateHistory = s.stateHistory := by
  unfold Store.undo; split <;> rfl

/-- `undo` never modifies the callback registry. -/
theorem undo_callbacks (s : Store) : s.undo.callbacks = s.callbacks := by
  unfold Store.undo; split <;> rfl

/-- `undo` emits no callback invocation. -/
theorem undo_emitted (s : Store) : s.undo.emitted = s.emitted := by
  unfold Store.undo; split <;> rfl

/-- `undo` catches no callback error. -/
theorem undo_consoleErrors (s : Store) : s.undo.consoleErrors = s.consoleErrors := by
  unfold Store.undo; split <;> rfl

/-- `redo` never modifies the transaction log. -/
theorem redo_stateHistory (s : Store) : s.redo.stateHistory = s.stateHistory := by
  simp only [Store.redo]
  split
  · split <;> rfl
  · rfl

/-- `redo` never modifies the callback registry. -/
theorem redo_callbacks (s : Store) : s.redo.callbacks = s.callbacks := by
  simp only [Store.redo]
  split
  · split <;> rfl
  · rfl

/-- `redo` emits no callback invocation. -/
theorem redo_emitted (s : Store) : s.redo.emitted = s.emitted := by
  simp only [Store.redo]
  split
  · split <;> rfl
  · rfl

/-- `redo` catches no callback error. -/
theorem redo_consoleErrors (s : Store) : s.redo.consoleErrors = s.consoleErrors := by
  simp only [Store.redo]
  split
  · split <;> rfl
  · rfl

/-- When the position is past the first transaction, `undo` decrements it
and replays the log through the new position. -/
theorem undo_of_pos (s : Store) (h : 0 < s.currentHistoryIndex) :
    s.undo = { s with
      dashboardState :=
        replayState (s.stateHistory.take (s.currentHistoryIndex - 1 + 1).toNat)
      currentHistoryIndex := s.currentHistoryIndex - 1 } := by
  unfold Store.undo
  have hc : s.canUndo = true := decide_eq_true h
  rw [if_pos hc]

/-- When the position is at the first transaction or earlier, `undo` is a
no-op. -/
theorem undo_of_nonpos (s : Store) (h : ¬ 0 < s.currentHistoryIndex) :
    s.undo = s := by
  unfold Store.undo
  rw [if_neg]
  intro hc
  exact h (of_decide_eq_true hc)

/-- When the position is at the end of the log, `redo` is a no-op. -/
theorem redo_of_ge (s : Store)
    (h : ¬ s.currentHistoryIndex < (s.stateHistory.length : Int) - 1) :
    s.redo = s := by
  unfold Store.redo
  rw [if_neg]
  intro hc
  exact h (of_decide_eq_true hc)

/-- When a next transaction exists, `redo` increments the position and
merges that transaction's updates onto the current state. -/
theorem redo_of_lt (s : Store)
    (h : s.currentHistoryIndex < (s.stateHistory.length : Int) - 1)
    (hlo : -1 ≤ s.currentHistoryIndex) :
    ∃ tx, s.stateHistory[(s.currentHistoryIndex + 1).toNat]? = some tx ∧
      s.redo = { s with
        dashboardState := applyUpdates s.dashboardState tx.updates
        currentHistoryIndex := s.currentHistoryIndex + 1 } := by
  have hbound : (s.currentHistoryIndex + 1).toNat < s.stateHistory.length := by omega
  refine ⟨s.stateHistory[(s.currentHistoryIndex + 1).toNat],
    List.getElem?_eq_getElem hbound, ?_⟩
  unfold Store.redo
  have hc : s.canRedo = true := decide_eq_true h
  rw [if_pos hc]
  dsimp only
  rw [List.getElem?_eq_getElem hbound]

/-- Taking at least the whole of `l ++ [x]` returns it unchanged. -/
theorem take_append_singleton_of_le {α : Type} (l : List α) (x : α) (n : Nat)
    (h : l.length + 1 ≤ n) : (l ++ [x]).take n = l ++ [x] := by
  apply List.take_of_length_le
  rw [List.length_append]
  simpa using h

/-- The freshly created store is replay-consistent. -/
theorem consistent_initialStore : initialStore.consistent :=
  ⟨rfl, by decide, by decide⟩

/-- `updateDashboardState` preserves replay-consistency: the committed
state is the replay of the truncated-and-extended log through the new
position. -/
theorem consistent_update (s : Store) (u : StateUpdates) (src : Option String)
    (h : s.consistent) : (s.updateDashboardState u src).consistent := by
  obtain ⟨hs, hlo, hhi⟩ := h
  have htake : (s.stateHistory.take (s.currentHistoryIndex + 1).toNat).length
      = (s.currentHistoryIndex + 1).toNat := by
    rw [List.length_take]; omega
  have hlen : (s.updateDashboardState u src).stateHistory.length
      = (s.currentHistoryIndex + 1).toNat + 1 := by
    rw [update_stateHistory, List.length_append, htake]; rfl
  refine ⟨?_, ?_, ?_⟩
  · rw [update_state, update_stateHistory, update_index]
    rw [take_append_singleton_of_le _ _ _ (by rw [htake]; omega)]
    rw [replayState_snoc, ← hs]
  · rw [update_index]; omega
  · rw [update_index, hlen]; omega

/-- `undo` preserves replay-consistency. -/
theorem consistent_undo (s : Store) (h : s.consistent) : s.undo.consistent := by
  obtain ⟨hs, hlo, hhi⟩ := h
  by_cases hc : 0 < s.currentHistoryIndex
  · rw [undo_of_pos s hc]
    refine ⟨rfl, ?_, ?_⟩
    · show -1 ≤ s.currentHistoryIndex - 1
      omega
    · show s.currentHistoryIndex - 1 < (s.stateHistory.length : Int)
      omega
  · rw [undo_of_nonpos s hc]
    exact ⟨hs, hlo, hhi⟩

/-- `redo` preserves replay-consistency: merging the next transaction's
updates onto a replay-consistent state yields the replay through the new
position. -/
theorem consistent_redo (s : Store) (h : s.consistent) : s.redo.consistent := by
  obtain ⟨hs, hlo, hhi⟩ := h
  by_cases hc : s.currentHistoryIndex < (s.stateHistory.length : Int) - 1
  · obtain ⟨tx, htx, heq⟩ := redo_of_lt s hc hlo
    rw [heq]
    refine ⟨?_, ?_, ?_⟩
    · show applyUpdates s.dashboardState tx.updates
        = replayState (s.stateHistory.take (s.currentHistoryIndex + 1 + 1).toNat)
      have hsplit : (s.currentHistoryIndex + 1 + 1).toNat
          = (s.currentHistoryIndex + 1).toNat + 1 := by omega
      rw [hsplit, List.take_succ, htx]
      rw [Option.toList_some, replayState_snoc, ← hs]
    · show -1 ≤ s.currentHistoryIndex + 1
      omega
    · show s.currentHistoryIndex + 1 < (s.stateHistory.length : Int)
      omega
  · rw [redo_of_ge s hc]
    exact ⟨hs, hlo, hhi⟩

/-- Each of the three transaction-log operations preserves
replay-consistency. -/
theorem consistent_applyOp (s : Store) (op : StoreOp)
    (hop : op.isHistoryOp = true) (h : s.consistent) :
    (s.applyOp op).consistent := by
  cases op with
  | update u src => exact consistent_update s u src h
  | undo => exact consistent_undo s h
  | redo => exact consistent_redo s h
  | reset => simp [StoreOp.isHistoryOp] at hop
  | save n => simp [StoreOp.isHistoryOp] at hop
  | load n => simp [StoreOp.isHistoryOp] at hop

/-- Folding a sequence of transaction-log operations over a
replay-consistent store keeps it replay-consistent. -/
theorem consistent_foldl : ∀ (ops : List StoreOp) (s : Store), s.consistent →
    (∀ op ∈ ops, op.isHistoryOp = true) →
    (ops.foldl Store.applyOp s).consistent := by
  intro ops
  induction ops with
  | nil => intro s h _; exact h
  | cons op rest ih =>
    intro s h hops
    exact ih (s.applyOp op)
      (consistent_applyOp s op (hops op (by simp)) h)
      (fun o ho => hops o (by simp [ho]))

/-- Iterating `undo` keeps the log and replay-consistency, and moves the
position down by one per effective step, stopping at 0 (or staying at -1,
where the guard already blocks). -/
theorem opIter_undo_spec : ∀ (k : Nat) (s : Store), s.consistent →
    (opIter Store.undo k s).consistent ∧
    (opIter Store.undo k s).stateHistory = s.stateHistory ∧
    (opIter Store.undo k s).currentHistoryIndex =
      max (s.currentHistoryIndex - k) (min s.currentHistoryIndex 0) := by
  intro k
  induction k with
  | zero =>
    intro s hs
    refine ⟨hs, rfl, ?_⟩
    show s.currentHistoryIndex = _
    have := hs.2.1
    omega
  | succ n ih =>
    intro s hs
    obtain ⟨h1, h2, h3⟩ := ih s.undo (consistent_undo s hs)
    have hlo := hs.2.1
    refine ⟨h1, ?_, ?_⟩
    · show (opIter Store.undo n s.undo).stateHistory = s.stateHistory
      rw [h2, undo_stateHistory]
    · show (opIter Store.undo n s.undo).currentHistoryIndex = _
      rw [h3]
      by_cases hc : 0 < s.currentHistoryIndex
      · have : s.undo.currentHistoryIndex = s.currentHistoryIndex - 1 := by
          rw [undo_of_pos s hc]
        rw [this]
        omega
      · have : s.undo.currentHistoryIndex = s.currentHistoryIndex := by
          rw [undo_of_nonpos s hc]
        rw [this]
        omega

/-- Iterating `redo` keeps the log and replay-consistency, and moves the
position up by one per effective step, stopping at the last transaction. -/
theorem opIter_redo_spec : ∀ (k : Nat) (s : Store), s.consistent →
    (opIter Store.redo k s).consistent ∧
    (opIter Store.redo k s).stateHistory = s.stateHistory ∧
    (opIter Store.redo k s).currentHistoryIndex =
      min (s.currentHistoryIndex + k) ((s.stateHistory.length : Int) - 1) := by
  intro k
  induction k with
  | zero =>
    intro s hs
    refine ⟨hs, rfl, ?_⟩
    show s.currentHistoryIndex = _
    have := hs.2.2
    omega
  | succ n ih =>
    intro s hs
    obtain ⟨h1, h2, h3⟩ := ih s.redo (consistent_redo s hs)
    have hlo := hs.2.1
    have hhi := hs.2.2
    have hh : s.redo.stateHistory = s.stateHistory := redo_stateHistory s
    refine ⟨h1, ?_, ?_⟩
    · show (opIter Store.redo n s.redo).stateHistory = s.stateHistory
      rw [h2, hh]
    · show (opIter Store.redo n s.redo).currentHistoryIndex = _
      rw [h3, hh]
      by_cases hc : s.currentHistoryIndex < (s.stateHistory.length : Int) - 1
      · obtain ⟨tx, htx, heq⟩ := redo_of_lt s hc hlo
        have : s.redo.currentHistoryIndex = s.currentHistoryIndex + 1 := by rw [heq]
        rw [this]
        omega
      · have : s.redo.currentHistoryIndex = s.currentHistoryIndex := by
          rw [redo_of_ge s hc]
        rw [this]
        omega

/-- Folding updates over a store whose position is at the end of the log
keeps the position at the end, keeps replay-consistency, and grows the log
by one entry per update. -/
theorem runUpdates_foldl_spec :
    ∀ (us : List (StateUpdates × Option String)) (s : Store), s.consistent →
    s.currentHistoryIndex = (s.stateHistory.length : Int) - 1 →
    (us.foldl (fun st p => st.updateDashboardState p.1 p.2) s).consistent ∧
    (us.foldl (fun st p => st.updateDashboardState p.1 p.2) s).currentHistoryIndex =
      (((us.foldl (fun st p => st.updateDashboardState p.1 p.2) s).stateHistory.length : Int) - 1) ∧
    (us.foldl (fun st p => st.updateDashboardState p.1 p.2) s).stateHistory.length =
      s.stateHistory.length + us.length := by
  intro us
  induction us with
  | nil => intro s h1 h2; exact ⟨h1, h2, rfl⟩
  | cons p rest ih =>
    intro s h1 h2
    have hu := consistent_update s p.1 p.2 h1
    have hlo := h1.2.1
    have hlen : (s.updateDashboardState p.1 p.2).stateHistory.length
        = s.stateHistory.length + 1 := by
      rw [update_stateHistory, List.length_append, List.length_take]
      simp only [List.length_singleton]
      omega
    have hidx : (s.updateDashboardState p.1 p.2).currentHistoryIndex =
        (((s.updateDashboardState p.1 p.2).stateHistory.length : Int) - 1) := by
      rw [update_index, hlen]
      push_cast
      omega
    obtain ⟨g1, g2, g3⟩ := ih (s.updateDashboardState p.1 p.2) hu hidx
    refine ⟨g1, g2, ?_⟩
    show (rest.foldl (fun st p => st.updateDashboardState p.1 p.2)
        (s.updateDashboardState p.1 p.2)).stateHistory.length = _
    rw [g3, hlen, List.length_cons]
    omega

/-- After `N` updates from the fresh store: replay-consistent, log length
`N`, position `N - 1`. -/
theorem runUpdates_spec (us : List (StateUpdates × Option String)) :
    (runUpdates us).consistent ∧
    (runUpdates us).currentHistoryIndex = (us.length : Int) - 1 ∧
    (runUpdates us).stateHistory.length = us.length := by
  obtain ⟨g1, g2, g3⟩ := runUpdates_foldl_spec us initialStore
    consistent_initialStore (by decide)
  have hlen : (runUpdates us).stateHistory.length = us.length := by
    show (us.foldl (fun st p => st.updateDashboardState p.1 p.2)
        initialStore).stateHistory.length = us.length
    rw [g3]
    have h0 : initialStore.stateHistory.length = 0 := rfl
    omega
  refine ⟨g1, ?_, hlen⟩
  show (us.foldl (fun st p => st.updateDashboardState p.1 p.2)
      initialStore).currentHistoryIndex = _
  rw [g2]
  rw [show (us.foldl (fun st p => st.updateDashboardState p.1 p.2)
      initialStore) = runUpdates us from rfl]
  rw [hlen]

/-- Claim C1 (code bug): the claim says undo is a no-op only at the
earliest state (position -1, before any transaction), so that after a
single `updateDashboardState` call from the initial default state `canUndo`
is true and `undo` restores the initial default state.  The code computes
`canUndo` as `currentHistoryIndex > 0`, so at position 0 — the first
transaction, which is not the earliest state — `canUndo` is already false
and `undo` is a no-op: the initial default state can never be restored by
undo.  This theorem evaluates the embedded code at the claim's own
scenario (`updateDashboardState` with region "Europe", source "test"):
the position is 0, `canUndo` is false, `undo` changes nothing, and the
state remains different from the initial default. -/
theorem undo_first_update_code_bug :
    c1store.currentHistoryIndex = 0 ∧
    c1store.canUndo = false ∧
    c1store.undo.currentHistoryIndex = c1store.currentHistoryIndex ∧
    c1store.undo.dashboardState = c1store.dashboardState ∧
    c1store.undo.dashboardState ≠ initialDashboardState := by decide

/-- Claim C2 (counterexample): after two updates and one undo the position
(0) is not at the end of the log (length 2); the claim then requires
`resetToDefault` to discard the transaction after the position before
appending, leaving 2 entries with the position at the reset transaction.
The code appends without truncating: the log has 3 entries, and the
position (1) points at the old second update (source `none`), not at the
reset transaction, which sits untouched at the end. -/
theorem resetToDefault_truncation_counterexample :
    c2run.stateHistory.length = 3 ∧
    c2run.currentHistoryIndex = 1 ∧
    (c2run.stateHistory.get? 1).map StateTransaction.source = some none ∧
    (c2run.stateHistory.get? 2).map StateTransaction.source = some (some "reset") := by
  decide

/-- Claim C2 (amended): `resetToDefault` restores the initial default state
and appends a transaction tagged with the reserved source "reset" whose
updates are the complete default state to the end of the log, without
truncating; the position increments by one, so it points at the reset
transaction only when the position was previously at the end of the log. -/
theorem resetToDefault_appends_without_truncating (store : Store) :
    store.resetToDefault.dashboardState = initialDashboardState ∧
    store.resetToDefault.stateHistory =
      store.stateHistory ++
        [{ id := store.clock, timestamp := store.clock
           updates := fullUpdates initialDashboardState, source := some "reset" }] ∧
    store.resetToDefault.currentHistoryIndex = store.currentHistoryIndex + 1 :=
  ⟨rfl, rfl, rfl⟩

/-- Claim C3 (counterexample): with one registered callback (which emits a
trace entry on every invocation) and two recorded updates, `undo` changes
the position but the emitted-trace log does not grow: the callback is not
invoked with the recomputed state, contrary to the claim. -/
theorem undo_no_callback_counterexample :
    c3base.callbacks.length = 1 ∧
    c3base.emitted = ["observed", "observed"] ∧
    c3base.undo.currentHistoryIndex ≠ c3base.currentHistoryIndex ∧
    c3base.undo.emitted = c3base.emitted := by decide

/-- Claim C3 (amended): `undo` and `redo` create no new transaction and
run no cascade resolution (they leave the transaction log untouched and
apply only the recorded, already-flattened `updates`), but they also do
NOT invoke any registered callback: the callback registry, the emitted
callback-trace log, and the caught-error log are all unchanged by both
operations. -/
theorem undo_redo_frame (store : Store) :
    store.undo.stateHistory = store.stateHistory ∧
    store.undo.callbacks = store.callbacks ∧
    store.undo.emitted = store.emitted ∧
    store.undo.consoleErrors = store.consoleErrors ∧
    store.redo.stateHistory = store.stateHistory ∧
    store.redo.callbacks = store.callbacks ∧
    store.redo.emitted = store.emitted ∧
    store.redo.consoleErrors = store.consoleErrors :=
  ⟨undo_stateHistory store, undo_callbacks store, undo_emitted store,
   undo_consoleErrors store, redo_stateHistory store, redo_callbacks store,
   redo_emitted store, redo_consoleErrors store⟩

/-- Claim C5 (counterexample): from a prior state whose `selectedIndustry`
is "tech", `updateDashboardState` with only region "Europe" does NOT leave
every other field unchanged: the cascade resets `selectedIndustry` to
"all". -/
theorem update_region_frame_counterexample :
    (({ initialStore with dashboardState := c5prior }).updateDashboardState
        regionEuropeUpdates none).dashboardState.selectedIndustry
      ≠ c5prior.selectedIndustry := by decide

/-- Claim C5 (amended): for every prior state, calling
`updateDashboardState` with only region "Europe" sets `selectedRegion` to
"Europe", resets the cascade-dependent field `selectedIndustry` to "all",
and leaves the four remaining fields byte-for-byte unchanged from their
prior values. -/
theorem update_region_frame (store : Store) (src : Option String) :
    (store.updateDashboardState regionEuropeUpdates src).dashboardState.selectedRegion
        = "Europe" ∧
    (store.updateDashboardState regionEuropeUpdates src).dashboardState.selectedIndustry
        = "all" ∧
    (store.updateDashboardState regionEuropeUpdates src).dashboardState.selectedTimeRange
        = store.dashboardState.selectedTimeRange ∧
    (store.updateDashboardState regionEuropeUpdates src).dashboardState.selectedRevenueType
        = store.dashboardState.selectedRevenueType ∧
    (store.updateDashboardState regionEuropeUpdates src).dashboardState.selectedDepartment
        = store.dashboardState.selectedDepartment ∧
    (store.updateDashboardState regionEuropeUpdates src).dashboardState.selectedMetric
        = store.dashboardState.selectedMetric :=
  ⟨rfl, rfl, rfl, rfl, rfl, rfl⟩

/-- Claim C6 (counterexample): for a store whose snapshot "x" exists only
in the persistence layer, `loadState "x"` returns true and makes the
snapshot current, but the in-memory snapshot map stays empty — it is not
populated, contrary to the claim. -/
theorem loadState_populate_counterexample :
    (c6store.loadState "x").2 = true ∧
    (c6store.loadState "x").1.dashboardState = c6snapshot ∧
    (c6store.loadState "x").1.savedStates = [] := by decide

/-- Claim C6 (amended): `loadState name` for a name whose snapshot exists
only in the persistence layer succeeds — it returns true and makes the
parsed snapshot the current state — but writes only `dashboardState`, so
the in-memory snapshot map is left unchanged (not populated); `loadState`
of a name absent from both layers returns false and leaves the store
entirely unchanged. -/
theorem loadState_behavior (store : Store) (name : String) :
    (∀ st : DashboardState,
      assocGet store.savedStates name = none →
      assocGet store.localStorage ("dashboard_state_" ++ name) = some (some st) →
      store.loadState name = ({ store with dashboardState := st }, true)) ∧
    (assocGet store.savedStates name = none →
      assocGet store.localStorage ("dashboard_state_" ++ name) = none →
      store.loadState name = (store, false)) := by
  constructor
  · intro st h1 h2
    unfold Store.loadState
    rw [h1, h2]
  · intro h1 h2
    unfold Store.loadState
    rw [h1, h2]

/-- Witness for `loadState_behavior` at a concrete input: a store whose
snapshot "x" is present only in persistence. -/
theorem loadState_behavior_witness :
    c6store.loadState "x" = ({ c6store with dashboardState := c6snapshot }, true) :=
  (loadState_behavior c6store "x").1 c6snapshot rfl rfl

/-- Claim C10: for every store and every name, `loadState` leaves the
transaction log, the position (hence `canUndo` and `canRedo`), and the
callback registry unchanged, and invokes no callback (the emitted trace
and caught-error logs are unchanged) — whether or not a snapshot is
found. -/
theorem loadState_frame (store : Store) (name : String) :
    (store.loadState name).1.stateHistory = store.stateHistory ∧
    (store.loadState name).1.currentHistoryIndex = store.currentHistoryIndex ∧
    (store.loadState name).1.canUndo = store.canUndo ∧
    (store.loadState name).1.canRedo = store.canRedo ∧
    (store.loadState name).1.callbacks = store.callbacks ∧
    (store.loadState name).1.emitted = store.emitted ∧
    (store.loadState name).1.consoleErrors = store.consoleErrors := by
  unfold Store.loadState
  cases h1 : assocGet store.savedStates name with
  | some s => exact ⟨rfl, rfl, rfl, rfl, rfl, rfl, rfl⟩
  | none =>
    cases h2 : assocGet store.localStorage ("dashboard_state_" ++ name) with
    | some v =>
      cases v with
      | some st => exact ⟨rfl, rfl, rfl, rfl, rfl, rfl, rfl⟩
      | none => exact ⟨rfl, rfl, rfl, rfl, rfl, rfl, rfl⟩
    | none => exact ⟨rfl, rfl, rfl, rfl, rfl, rfl, rfl⟩

/-- Claim C4 (counterexample): the claim quantifies over every reachable
store state, but a state set by `loadState` (which replaces the current
state without touching the transaction log) breaks the equivalence: after
update metric, save "x", update time range, update revenue type, undo,
load "x", a redo exists, and merging the next transaction's updates onto
the current (loaded) state differs from the full replay through the new
position — the loaded state lost the time-range update that the replay
restores. -/
theorem redo_merge_replay_counterexample :
    c4run.canRedo = true ∧
    c4run.redo.dashboardState ≠
      replayState (c4run.stateHistory.take
        (c4run.redo.currentHistoryIndex + 1).toNat) := by decide

/-- Claim C4 (amended): for every store state reachable from the fresh
store using only the transaction-log operations `updateDashboardState`,
`undo` and `redo`, a `redo` (implemented as merging the next transaction's
recorded updates directly onto the current state) produces exactly the
state of a full replay folding the default state with every transaction's
updates from the first entry through the new position — the recorded
updates are complete because cascades are resolved and flattened at write
time, and the current state is itself the replay through the current
position. -/
theorem redo_merge_equals_replay (ops : List StoreOp)
    (hops : ∀ op ∈ ops, op.isHistoryOp = true)
    (_hredo : (runOps ops).canRedo = true) :
    (runOps ops).redo.dashboardState =
      replayState ((runOps ops).stateHistory.take
        ((runOps ops).redo.currentHistoryIndex + 1).toNat) := by
  have hc : (runOps ops).consistent :=
    consistent_foldl ops initialStore consistent_initialStore hops
  have hcr : (runOps ops).redo.consistent := consistent_redo _ hc
  have hh : (runOps ops).redo.stateHistory = (runOps ops).stateHistory :=
    redo_stateHistory _
  rw [← hh]
  exact hcr.1

/-- Witness for `redo_merge_equals_replay`: two updates then one undo, a
history-ops-only sequence with a pending redo. -/
theorem redo_merge_equals_replay_witness :
    (runOps [.update u6M none, .update uUsage none, .undo]).redo.dashboardState =
      replayState ((runOps [.update u6M none, .update uUsage none, .undo]).stateHistory.take
        ((runOps [.update u6M none, .update uUsage none, .undo]).redo.currentHistoryIndex
          + 1).toNat) :=
  redo_merge_equals_replay [.update u6M none, .update uUsage none, .undo]
    (by decide) (by decide)

/-- Claim C7: for every sequence of `N` `updateDashboardState` calls from
the fresh store, undoing `N` times and then redoing `N` times yields
exactly the dashboard state obtained by issuing the `N` updates and never
undoing.  (With the code's `canUndo` guard the `N`-th undo and the `N`-th
redo are no-ops, which cancel out.) -/
theorem history_replay_determinism (us : List (StateUpdates × Option String)) :
    (opIter Store.redo us.length
        (opIter Store.undo us.length (runUpdates us))).dashboardState
      = (runUpdates us).dashboardState := by
  obtain ⟨hb, hbidx, hblen⟩ := runUpdates_spec us
  obtain ⟨hu, huh, huidx⟩ := opIter_undo_spec us.length (runUpdates us) hb
  obtain ⟨hr, hrh, hridx⟩ :=
    opIter_redo_spec us.length (opIter Store.undo us.length (runUpdates us)) hu
  have hh2 : (opIter Store.redo us.length
      (opIter Store.undo us.length (runUpdates us))).stateHistory
      = (runUpdates us).stateHistory := by
    rw [hrh, huh]
  have hidx : (opIter Store.redo us.length
      (opIter Store.undo us.length (runUpdates us))).currentHistoryIndex
      = (runUpdates us).currentHistoryIndex := by
    rw [hridx, huidx, huh, hblen, hbidx]
    omega
  have h1 := hr.1
  rw [hh2, hidx] at h1
  rw [h1]
  exact hb.1.symm

/-- Claim C8: after `M` updates from the fresh store, `K` undos with
`K < M`, one further `updateDashboardState` call leaves the transaction
log with exactly `(M - K) + 1` entries and makes `canRedo` false. -/
theorem truncate_on_branch (us : List (StateUpdates × Option String)) (K : Nat)
    (u : StateUpdates) (src : Option String) (hK : K < us.length) :
    ((opIter Store.undo K (runUpdates us)).updateDashboardState u src).stateHistory.length
        = (us.length - K) + 1 ∧
    ((opIter Store.undo K (runUpdates us)).updateDashboardState u src).canRedo = false := by
  obtain ⟨hb, hbidx, hblen⟩ := runUpdates_spec us
  obtain ⟨hu, huh, huidx⟩ := opIter_undo_spec K (runUpdates us) hb
  have hAidx : (opIter Store.undo K (runUpdates us)).currentHistoryIndex
      = (us.length : Int) - 1 - K := by
    rw [huidx, hbidx]
    omega
  have hAlen : (opIter Store.undo K (runUpdates us)).stateHistory.length = us.length := by
    rw [huh, hblen]
  have hlen : ((opIter Store.undo K (runUpdates us)).updateDashboardState
      u src).stateHistory.length = (us.length - K) + 1 := by
    rw [update_stateHistory, List.length_append, List.length_take, hAidx, hAlen]
    simp only [List.length_singleton]
    omega
  have hidx2 : ((opIter Store.undo K (runUpdates us)).updateDashboardState
      u src).currentHistoryIndex = (us.length : Int) - K := by
    rw [update_index, hAidx]
    omega
  refine ⟨hlen, ?_⟩
  simp only [Store.canRedo, decide_eq_false_iff_not, not_lt]
  rw [hidx2, hlen]
  omega

/-- Witness for `truncate_on_branch`: M = 2 updates, K = 1 undo, one new
update — log length (2 - 1) + 1 = 2 and no pending redo. -/
theorem truncate_on_branch_witness :
    ((opIter Store.undo 1 (runUpdates [(u6M, none), (uUsage, none)])).updateDashboardState
        uGrowth none).stateHistory.length = 2 ∧
    ((opIter Store.undo 1 (runUpdates [(u6M, none), (uUsage, none)])).updateDashboardState
        uGrowth none).canRedo = false :=
  truncate_on_branch [(u6M, none), (uUsage, none)] 1 uGrowth none (by decide)

/-- Claim C9: with three callbacks registered (under the distinct ids
"first", "second", "third"), one `updateDashboardState` call invokes all
three exactly once each, in registration order, with
`(newState, previousState)`; each callback's exception, if any, is caught
and recorded (the source logs it via `console.error`) without preventing
the remaining callbacks from being invoked and without propagating to the
caller: the update completes and commits the merged state.  The callbacks
are arbitrary, so in particular any of them may throw. -/
theorem callback_fan_out (cb1 cb2 cb3 : DashboardCallback) (u : StateUpdates)
    (src : Option String) :
    ((((initialStore.registerCallback "first" cb1).registerCallback "second"
        cb2).registerCallback "third" cb3).updateDashboardState u src).emitted
      = (cb1 (applyUpdates initialDashboardState (resolveUpdates u))
            initialDashboardState).trace
        ++ (cb2 (applyUpdates initialDashboardState (resolveUpdates u))
            initialDashboardState).trace
        ++ (cb3 (applyUpdates initialDashboardState (resolveUpdates u))
            initialDashboardState).trace ∧
    ((((initialStore.registerCallback "first" cb1).registerCallback "second"
        cb2).registerCallback "third" cb3).updateDashboardState u src).consoleErrors
      = (cb1 (applyUpdates initialDashboardState (resolveUpdates u))
            initialDashboardState).error.toList
        ++ (cb2 (applyUpdates initialDashboardState (resolveUpdates u))
            initialDashboardState).error.toList
        ++ (cb3 (applyUpdates initialDashboardState (resolveUpdates u))
            initialDashboardState).error.toList ∧
    ((((initialStore.registerCallback "first" cb1).registerCallback "second"
        cb2).registerCallback "third" cb3).updateDashboardState u src).dashboardState
      = applyUpdates initialDashboardState (resolveUpdates u) := by
  refine ⟨?_, ?_, rfl⟩ <;>
    simp [Store.updateDashboardState, Store.registerCallback, assocSet,
      initialStore, runCallbacks]
